import Mathlib

/-!
Verification of the `folco` CLI (`src/main.rs`): source resolution for
decals and overlays, CLI profile construction, and the progress-reporting
consumer loop.

Strings are modelled by Lean `String` (a wrapper around `List Char`); paths
are modelled as strings on a Unix-style `/`-separated filesystem.  The
filesystem itself is a parameter: `pathExists` models `Path::exists` and
`readToString` models `std::fs::read_to_string` (`none` is a read error).
-/

namespace Folco

/-- Whitespace test used by `str::trim`.  Rust trims Unicode whitespace; the
inputs relevant here only involve ASCII whitespace, which `Char.isWhitespace`
covers. -/
def isTrimWhitespace (c : Char) : Bool :=
  c.isWhitespace

/-- Model of Rust `str::trim`: drop whitespace from both ends. -/
def rustTrim (s : String) : String :=
  ⟨((s.data.dropWhile isTrimWhitespace).reverse.dropWhile isTrimWhitespace).reverse⟩

/-- Model of Rust `str::starts_with('<')` from `main.rs:90` / `main.rs:129`. -/
def startsWithLt (s : String) : Bool :=
  match s.data with
  | [] => false
  | c :: _ => c = '<'

/-- Index of the last occurrence of `c` in a character list. -/
def lastIdxOf (c : Char) : List Char → Option Nat
  | [] => none
  | x :: xs =>
    match lastIdxOf c xs with
    | some i => some (i + 1)
    | none => if x = c then some 0 else none

/-- Split a character list on a separator character. -/
def splitOnCharAux (sep : Char) : List Char → List Char → List (List Char)
  | acc, [] => [acc.reverse]
  | acc, x :: xs =>
    if x = sep then acc.reverse :: splitOnCharAux sep [] xs
    else splitOnCharAux sep (x :: acc) xs

/-- Split a character list on a separator character (top level). -/
def splitOnChar (sep : Char) (cs : List Char) : List (List Char) :=
  splitOnCharAux sep [] cs

/-- Model of Rust `Path::file_name` for Unix-style string paths: the last
non-empty, non-`.` path component, unless it is `..` (then `None`). -/
def pathFileName (s : String) : Option String :=
  let comps := (splitOnChar '/' s.data).filter (fun c => c ≠ [] ∧ c ≠ ['.'])
  match comps.getLast? with
  | none => none
  | some last => if last = ['.', '.'] then none else some ⟨last⟩

/-- Model of Rust `Path::extension`: the part of the file name after its last
`.`, unless the only `.` is the leading one (hidden files have no extension). -/
def pathExtension (s : String) : Option String :=
  match pathFileName s with
  | none => none
  | some name =>
    match lastIdxOf '.' name.data with
    | none => none
    | some 0 => none
    | some i => some ⟨name.data.drop (i + 1)⟩

/-- Model of Rust `char::to_ascii_lowercase`. -/
def asciiLower (c : Char) : Char :=
  if 'A' ≤ c ∧ c ≤ 'Z' then Char.ofNat (c.toNat + 32) else c

/-- Model of Rust `str::eq_ignore_ascii_case`. -/
def eqIgnoreAsciiCase (a b : String) : Bool :=
  a.data.map asciiLower = b.data.map asciiLower

/-- The svg-file test of `resolve_overlay_source` (`main.rs:135`):
`path.extension().is_some_and(|ext| ext.eq_ignore_ascii_case("svg"))`. -/
def hasSvgExtension (s : String) : Bool :=
  match pathExtension s with
  | some ext => eqIgnoreAsciiCase ext "svg"
  | none => false

/-- Filesystem model: `pathExists` is `Path::exists`, `readToString` is
`std::fs::read_to_string` with `none` standing for a read error. -/
structure FileSystem where
  pathExists : String → Bool
  readToString : String → Option String

/-- The empty filesystem: no path exists, every read fails. -/
def emptyFS : FileSystem :=
  ⟨fun _ => false, fun _ => none⟩

/-- Errors the CLI helper functions can surface (`anyhow` errors in the
source, distinguished here by their message shape). -/
inductive CliError where
  /-- `bail!("Could not resolve decal source ...")` at `main.rs:102`. -/
  | notFoundOrMarkup (input : String)
  /-- `read_to_string` failure with its "Failed to read ..." context. -/
  | readFailed (path : String)
deriving DecidableEq, Repr

/-- `SerializableSvgSource` from `folco_core`, as used by `main.rs`: a tagged
union of raw markup, an emoji character, and an emoji name. -/
inductive SerializableSvgSource where
  | raw (markup : String)
  | emojiChar (grapheme : String)
  | emojiName (identifier : String)
deriving DecidableEq, Repr

/-- Constructor `SerializableSvgSource::from_svg`. -/
def SerializableSvgSource.from_svg (s : String) : SerializableSvgSource :=
  .raw s

/-- Constructor `SerializableSvgSource::from_emoji`. -/
def SerializableSvgSource.from_emoji (s : String) : SerializableSvgSource :=
  .emojiChar s

/-- Constructor `SerializableSvgSource::from_emoji_name`. -/
def SerializableSvgSource.from_emoji_name (s : String) : SerializableSvgSource :=
  .emojiName s

/-- `resolve_svg_source` (`main.rs:86-107`): decal source resolution.
Raw markup if the trimmed input starts with `<`; else read an existing path;
else fail with the not-found-or-markup error. -/
def resolve_svg_source (fs : FileSystem) (input : String) : Except CliError String :=
  let trimmed := rustTrim input
  if startsWithLt trimmed then
    .ok trimmed
  else if fs.pathExists trimmed then
    match fs.readToString trimmed with
    | some contents => .ok contents
    | none => .error (.readFailed trimmed)
  else
    .error (.notFoundOrMarkup input)

/-- The per-character emoji test of `looks_like_emoji` (`main.rs:113-120`). -/
def isEmojiSignalChar (c : Char) : Bool :=
  c.val = 0x200D ||
  c.val = 0xFE0F ||
  c.val = 0x20E3 ||
  (0x2600 ≤ c.val && c.val ≤ 0x27BF) ||
  (0x2B50 ≤ c.val && c.val ≤ 0x2B55) ||
  (0x1F000 ≤ c.val && c.val ≤ 0x1FAFF)

/-- `looks_like_emoji` (`main.rs:110-122`): true if the string contains at
least one character from the emoji-signal ranges. -/
def looks_like_emoji (s : String) : Bool :=
  s.data.any isEmojiSignalChar

/-- `resolve_overlay_source` (`main.rs:125-148`): overlay source resolution
with the fixed precedence markup → svg-file → emoji-char → emoji-name. -/
def resolve_overlay_source (fs : FileSystem) (input : String) :
    Except CliError SerializableSvgSource :=
  let trimmed := rustTrim input
  if startsWithLt trimmed then
    .ok (SerializableSvgSource.from_svg trimmed)
  else if hasSvgExtension trimmed && fs.pathExists trimmed then
    match fs.readToString trimmed with
    | some svg => .ok (SerializableSvgSource.from_svg svg)
    | none => .error (.readFailed trimmed)
  else if looks_like_emoji trimmed then
    .ok (SerializableSvgSource.from_emoji trimmed)
  else
    .ok (SerializableSvgSource.from_emoji_name trimmed)

/-- `PositionArg` (`main.rs:150-158`), the CLI value enum for overlay
positions. -/
inductive PositionArg where
  | bottomLeft
  | bottomRight
  | topLeft
  | topRight
  | center
deriving DecidableEq, Repr

/-- `SerializablePosition` from `folco_core`, the profile-level anchor enum
targeted by the `From<PositionArg>` impl at `main.rs:160-170`. -/
inductive SerializablePosition where
  | bottomLeft
  | bottomRight
  | topLeft
  | topRight
  | center
deriving DecidableEq, Repr

/-- The `From<PositionArg> for SerializablePosition` impl (`main.rs:160-170`). -/
def PositionArg.toSerializable : PositionArg → SerializablePosition
  | .bottomLeft => .bottomLeft
  | .bottomRight => .bottomRight
  | .topLeft => .topLeft
  | .topRight => .topRight
  | .center => .center

/-- Clap `ValueEnum` parsing for `PositionArg`: variant names are rendered in
kebab-case, so these five strings are the accepted values. -/
def PositionArg.fromClapValue (s : String) : Option PositionArg :=
  if s = "bottom-left" then some .bottomLeft
  else if s = "bottom-right" then some .bottomRight
  else if s = "top-left" then some .topLeft
  else if s = "top-right" then some .topRight
  else if s = "center" then some .center
  else none

/-- The value clap substitutes for `--overlay-position` when the flag is
absent: the attribute at `main.rs:66` declares the textual default value
"center", parsed through the `ValueEnum` impl. -/
def overlayPositionDefault : Option PositionArg :=
  PositionArg.fromClapValue "center"

/-- `HslMutationSettings` from `folco_core`; shift amounts are modelled as
exact rationals since the CLI never computes with them. -/
structure HslMutation where
  hue_shift : Rat
  saturation_shift : Rat
  lightness_shift : Rat
deriving DecidableEq, Repr

/-- `DecalSettings` from `folco_core`, as constructed at `main.rs:215-219`.
The `f32` scale is modelled as an exact rational: the CLI passes the parsed
value through without arithmetic. -/
structure DecalSettings where
  source : SerializableSvgSource
  scale : Rat
  enabled : Bool
deriving DecidableEq, Repr

/-- `OverlaySettings` from `folco_core`, as constructed at `main.rs:225-230`. -/
structure OverlaySettings where
  source : SerializableSvgSource
  position : SerializablePosition
  scale : Rat
  enabled : Bool
deriving DecidableEq, Repr

/-- Modelled from the spec: `CustomizationProfile` (`folco_core`, not under
`src/`) has three independently optional axes — HSL mutation, decal,
overlay — all unset in a fresh profile. -/
structure CustomizationProfile where
  hsl_mutation : Option HslMutation := none
  decal : Option DecalSettings := none
  overlay : Option OverlaySettings := none
deriving DecidableEq, Repr

/-- Modelled from the spec: `CustomizationProfile::new()` is the empty
profile. -/
def CustomizationProfile.new : CustomizationProfile := {}

/-- Modelled from the spec: the fluent builder's `with_hsl_mutation` returns
a new value with the HSL axis set. -/
def CustomizationProfile.with_hsl_mutation (p : CustomizationProfile)
    (h : HslMutation) : CustomizationProfile :=
  { p with hsl_mutation := some h }

/-- Modelled from the spec: the fluent builder's `with_decal` returns a new
value with the decal axis set.  The spec further requires stored scales to
lie in `(0.0, 1.0]` — out-of-range input "is rejected or the value is
clamped", with the choice deliberately left open upstream — and `folco_core`
is not under `src/`, so how the builder treats the scale field is unpinned;
accordingly, every lemma and claim theorem below is stated so that it does
not depend on which scale value the builder stores. -/
def CustomizationProfile.with_decal (p : CustomizationProfile)
    (d : DecalSettings) : CustomizationProfile :=
  { p with decal := some d }

/-- Modelled from the spec: the fluent builder's `with_overlay` returns a new
value with the overlay axis set.  The stored scale is unpinned by the spec
exactly as for `with_decal`, and nothing below depends on it. -/
def CustomizationProfile.with_overlay (p : CustomizationProfile)
    (o : OverlaySettings) : CustomizationProfile :=
  { p with overlay := some o }

/-- The decal block of `main.rs:212-220`: resolve `--decal` when present and
stage it with the given scale, `enabled: true`.  Scales are the parsed
`--decal-scale` / `--overlay-scale` values (default `0.70`), which the CLI
itself hands to the builder unvalidated; `colorHsl` below stands for
`color.map(|c| c.to_hsl_mutation_settings())` (palette table in `folco_core`). -/
def addDecalFromOptions (fs : FileSystem) (decal : Option String)
    (decal_scale : Rat) (p : CustomizationProfile) :
    Except CliError CustomizationProfile :=
  match decal with
  | none => .ok p
  | some source =>
    match resolve_svg_source fs source with
    | .error e => .error e
    | .ok svg =>
      .ok (p.with_decal
        { source := SerializableSvgSource.from_svg svg
          scale := decal_scale
          enabled := true })

/-- The overlay block of `main.rs:222-231`: resolve `--overlay` when present
and stage it with the given position and scale, `enabled: true`. -/
def addOverlayFromOptions (fs : FileSystem) (overlay : Option String)
    (overlay_position : PositionArg) (overlay_scale : Rat)
    (p : CustomizationProfile) : Except CliError CustomizationProfile :=
  match overlay with
  | none => .ok p
  | some source =>
    match resolve_overlay_source fs source with
    | .error e => .error e
    | .ok src =>
      .ok (p.with_overlay
        { source := src
          position := overlay_position.toSerializable
          scale := overlay_scale
          enabled := true })

/-- The color block of `main.rs:205-210`: a fresh profile, with the HSL
mutation applied when `--color` was given. -/
def baseProfileFromOptions (colorHsl : Option HslMutation) :
    CustomizationProfile :=
  match colorHsl with
  | some h => CustomizationProfile.new.with_hsl_mutation h
  | none => CustomizationProfile.new

/-- Profile construction from individual CLI options, the `else` branch of
`main.rs:203-234`, with the color, decal and overlay blocks factored out
above. -/
def buildProfileFromOptions (fs : FileSystem) (colorHsl : Option HslMutation)
    (decal : Option String) (decal_scale : Rat)
    (overlay : Option String) (overlay_position : PositionArg)
    (overlay_scale : Rat) : Except CliError CustomizationProfile :=
  match addDecalFromOptions fs decal decal_scale
      (baseProfileFromOptions colorHsl) with
  | .error e => .error e
  | .ok p => addOverlayFromOptions fs overlay overlay_position overlay_scale p

/-- The `Progress` event enum from `folco_core::progress`, with the fields
the CLI handlers match on (`main.rs:268-311`); extra fields matched by `..`
are omitted. -/
inductive Progress where
  | started (total : Nat)
  | rendering
  | renderFailed (error : String)
  | processing (path : String)
  | folderComplete (path : String)
  | folderFailed (path : String) (error : String)
  | completed (succeeded : Nat) (failed : Nat)
deriving DecidableEq, Repr

/-- Is the event a per-directory terminal event (`FolderComplete` or
`FolderFailed`)? -/
def Progress.isTerminal : Progress → Bool
  | .folderComplete _ => true
  | .folderFailed _ _ => true
  | _ => false

/-- Is the event a batch-level anchor (`Started` or `Completed`)?  A
well-formed batch emits exactly one of each, around all other events. -/
def Progress.isBatchAnchor : Progress → Bool
  | .started _ => true
  | .completed _ _ => true
  | _ => false

/-- State of an `indicatif::ProgressBar` as far as the CLI drives it:
position, length, message and the finished flag. -/
structure ProgressBarState where
  pos : Nat
  length : Nat
  message : String
  finished : Bool
deriving DecidableEq, Repr

namespace ProgressBarState

/-- `ProgressBar::new(total)` via `create_progress_bar` (`main.rs:172-180`):
length `total`, position `0` (styling is ignored). -/
def new (total : Nat) : ProgressBarState :=
  { pos := 0, length := total, message := "", finished := false }

/-- `ProgressBar::inc(n)`: advance the position by `n`. -/
def inc (pb : ProgressBarState) (n : Nat) : ProgressBarState :=
  { pb with pos := pb.pos + n }

/-- `ProgressBar::set_length`. -/
def set_length (pb : ProgressBarState) (n : Nat) : ProgressBarState :=
  { pb with length := n }

/-- `ProgressBar::set_message`. -/
def set_message (pb : ProgressBarState) (m : String) : ProgressBarState :=
  { pb with message := m }

/-- `ProgressBar::finish_with_message`: per indicatif's documented finish
semantics, the bar is moved to its length, marked finished, and the message
replaced. -/
def finish_with_message (pb : ProgressBarState) (m : String) : ProgressBarState :=
  { pb with pos := pb.length, message := m, finished := true }

end ProgressBarState

/-- Display name used in `Processing` messages (`main.rs:286-289`):
`file_name()` when present, else the full path. -/
def displayName (path : String) : String :=
  (pathFileName path).getD path

/-- One iteration of the customize progress handler's `match`
(`main.rs:268-311`), as a transition on the bar state.  `suspend`/`eprintln`
only write to stderr and leave the bar unchanged. -/
def customizeStep (pb : ProgressBarState) : Progress → ProgressBarState
  | .started total => (pb.set_length total).set_message "Starting..."
  | .rendering => pb.set_message "Rendering icons..."
  | .renderFailed _ => pb
  | .processing path => pb.set_message ("Processing: " ++ displayName path)
  | .folderComplete _ => pb.inc 1
  | .folderFailed _ _ => pb.inc 1
  | .completed succeeded failed =>
    pb.finish_with_message
      ("Completed: " ++ toString succeeded ++ " succeeded, " ++
        toString failed ++ " failed")

/-- One iteration of the reset progress handler's `match` (`main.rs:338-371`);
`Rendering` and `RenderFailed` fall to the `_ => {}` arm. -/
def resetStep (pb : ProgressBarState) : Progress → ProgressBarState
  | .started total => (pb.set_length total).set_message "Starting..."
  | .processing path => pb.set_message ("Resetting: " ++ displayName path)
  | .folderComplete _ => pb.inc 1
  | .folderFailed _ _ => pb.inc 1
  | .completed succeeded failed =>
    pb.finish_with_message
      ("Completed: " ++ toString succeeded ++ " succeeded, " ++
        toString failed ++ " failed")
  | _ => pb

/-- Decidable equality for `Except` results, so concrete resolver outputs can
be compared by `decide`. -/
instance {ε α : Type} [DecidableEq ε] [DecidableEq α] : DecidableEq (Except ε α) := fun
  | .ok a, .ok b => decidable_of_iff (a = b) (by simp)
  | .error a, .error b => decidable_of_iff (a = b) (by simp)
  | .ok _, .error _ => isFalse (by simp)
  | .error _, .ok _ => isFalse (by simp)

/-- The consumer loop `while let Some(progress) = rx.recv().await { ... }`
(`main.rs:266-313` and `main.rs:337-373`).  The tokio mpsc channel delivers
the events sent before the producer dropped `tx` in FIFO order and then
yields `None`; `events` is that sequence.  The loop returns the final bar
state together with the list of events it processed, in processing order. -/
def recvDrain (step : ProgressBarState → Progress → ProgressBarState) :
    ProgressBarState → List Progress → ProgressBarState × List Progress
  | pb, [] => (pb, [])
  | pb, e :: rest =>
    let r := recvDrain step (step pb e) rest
    (r.1, e :: r.2)

/-- Sample decal settings as the CLI stages them for `--decal "<svg/>"` with
the default scale. -/
def sampleDecalSettings : DecalSettings :=
  { source := .raw "<svg/>", scale := 7/10, enabled := true }

/-- Sample overlay settings as the CLI stages them for `--overlay duck` with
an explicit center position and the default scale. -/
def sampleOverlaySettings : OverlaySettings :=
  { source := .emojiName "duck", position := .center, scale := 7/10,
    enabled := true }

/-- The emoji-signal set exactly as the spec words it: zero-width-joiner,
variation selector, enclosing keycap, the dingbat/symbol block
(U+2600–U+27BF, Miscellaneous Symbols and Dingbats), and the major emoji
planes (U+1F000–U+1FAFF).  Written from the spec for comparison with
`isEmojiSignalChar`, which is written from the code. -/
def claimedEmojiSignalChar (c : Char) : Bool :=
  c.val = 0x200D ||
  c.val = 0xFE0F ||
  c.val = 0x20E3 ||
  (0x2600 ≤ c.val && c.val ≤ 0x27BF) ||
  (0x1F000 ≤ c.val && c.val ≤ 0x1FAFF)

/-- The spec's emoji-signal set amended with the stars/circles range
U+2B50–U+2B55 that the code also treats as an emoji signal. -/
def amendedEmojiSignalChar (c : Char) : Bool :=
  claimedEmojiSignalChar c || (0x2B50 ≤ c.val && c.val ≤ 0x2B55)

/-! Theorems.  Claim theorems are stated over the definitions above; helper
lemmas are shared and never carry a claim name. -/

/-- The code's per-character emoji test agrees with the amended signal set
pointwise. -/
lemma isEmojiSignalChar_eq_amended (c : Char) :
    isEmojiSignalChar c = amendedEmojiSignalChar c := by
  simp only [isEmojiSignalChar, amendedEmojiSignalChar, claimedEmojiSignalChar]
  rw [Bool.eq_iff_iff]
  simp only [Bool.or_eq_true, Bool.and_eq_true, decide_eq_true_eq]
  tauto

/-- `looks_like_emoji` scans the string for amended-set characters. -/
lemma looks_like_emoji_eq_any_amended (s : String) :
    looks_like_emoji s = s.data.any amendedEmojiSignalChar := by
  have h : isEmojiSignalChar = amendedEmojiSignalChar :=
    funext isEmojiSignalChar_eq_amended
  show s.data.any isEmojiSignalChar = s.data.any amendedEmojiSignalChar
  rw [h]

/-- C1: decal source resolution follows the fixed three-step precedence —
raw markup when the trimmed input starts with `<`; else an existing path is
read in full and returned as markup; else resolution fails with the
not-found-or-markup error.  In particular `"<svg/>"` resolves to its own
markup and `"/no/such/file"` fails. -/
theorem decal_source_resolution_precedence (fs : FileSystem) (input : String) :
    (startsWithLt (rustTrim input) = true →
      resolve_svg_source fs input = .ok (rustTrim input)) ∧
    (startsWithLt (rustTrim input) = false →
      fs.pathExists (rustTrim input) = true →
      ∀ c, fs.readToString (rustTrim input) = some c →
        resolve_svg_source fs input = .ok c) ∧
    (startsWithLt (rustTrim input) = false →
      fs.pathExists (rustTrim input) = false →
      resolve_svg_source fs input = .error (.notFoundOrMarkup input)) ∧
    resolve_svg_source fs "<svg/>" = .ok "<svg/>" ∧
    resolve_svg_source emptyFS "/no/such/file" =
      .error (.notFoundOrMarkup "/no/such/file") := by
  refine ⟨?_, ?_, ?_, ?_, ?_⟩
  · intro h
    simp [resolve_svg_source, h]
  · intro h1 h2 c h3
    simp [resolve_svg_source, h1, h2, h3]
  · intro h1 h2
    simp [resolve_svg_source, h1, h2]
  · rfl
  · rfl

/-- Witness for C1: the not-found branch at the concrete input
`"/no/such/file"` on the empty filesystem. -/
theorem decal_source_resolution_precedence_witness :
    resolve_svg_source emptyFS "/no/such/file" =
      .error (.notFoundOrMarkup "/no/such/file") :=
  (decal_source_resolution_precedence emptyFS "/no/such/file").2.2.1 rfl rfl

/-- C2: overlay resolution applies the fixed precedence markup → svg-file →
emoji-char → emoji-name; the svg-file branch is taken only when the input
has a case-insensitive `.svg` extension AND the path exists.  Both halves of
that gate are covered: without the extension the filesystem is bypassed
entirely (even when a same-named file exists), and with the extension but no
existing path the input falls through to emoji classification. -/
theorem overlay_source_resolution_precedence (fs : FileSystem) (input : String) :
    (startsWithLt (rustTrim input) = true →
      resolve_overlay_source fs input = .ok (.raw (rustTrim input))) ∧
    (startsWithLt (rustTrim input) = false →
      hasSvgExtension (rustTrim input) = true →
      fs.pathExists (rustTrim input) = true →
      ∀ c, fs.readToString (rustTrim input) = some c →
        resolve_overlay_source fs input = .ok (.raw c)) ∧
    (startsWithLt (rustTrim input) = false →
      hasSvgExtension (rustTrim input) = false →
      resolve_overlay_source fs input =
        .ok (if looks_like_emoji (rustTrim input) then
              .emojiChar (rustTrim input)
            else .emojiName (rustTrim input)) ∧
      ∀ fs' : FileSystem,
        resolve_overlay_source fs input = resolve_overlay_source fs' input) ∧
    (startsWithLt (rustTrim input) = false →
      fs.pathExists (rustTrim input) = false →
      resolve_overlay_source fs input =
        .ok (if looks_like_emoji (rustTrim input) then
              .emojiChar (rustTrim input)
            else .emojiName (rustTrim input))) := by
  refine ⟨?_, ?_, ?_, ?_⟩
  · intro h
    simp [resolve_overlay_source, SerializableSvgSource.from_svg, h]
  · intro h1 h2 h3 c h4
    simp [resolve_overlay_source, SerializableSvgSource.from_svg, h1, h2, h3, h4]
  · intro h1 h2
    constructor
    · cases he : looks_like_emoji (rustTrim input) <;>
        simp [resolve_overlay_source, SerializableSvgSource.from_emoji,
          SerializableSvgSource.from_emoji_name, h1, h2, he]
    · intro fs'
      cases he : looks_like_emoji (rustTrim input) <;>
        simp [resolve_overlay_source, h1, h2, he]
  · intro h1 hex
    cases he : looks_like_emoji (rustTrim input) <;>
      simp [resolve_overlay_source, SerializableSvgSource.from_emoji,
        SerializableSvgSource.from_emoji_name, h1, hex, he]

/-- Witness for C2: `"duck"` is resolved as an emoji name even on a
filesystem where every path (including `"duck"`) exists and is readable, and
`"missing.svg"` — a `.svg` extension without an existing path — is resolved
as an emoji name rather than as a file. -/
theorem overlay_source_resolution_precedence_witness :
    resolve_overlay_source ⟨fun _ => true, fun _ => some "FILE"⟩ "duck" =
      .ok (.emojiName "duck") ∧
    resolve_overlay_source emptyFS "missing.svg" =
      .ok (.emojiName "missing.svg") :=
  ⟨(((overlay_source_resolution_precedence
      ⟨fun _ => true, fun _ => some "FILE"⟩ "duck").2.2.1 rfl rfl).1).trans rfl,
   ((overlay_source_resolution_precedence emptyFS "missing.svg").2.2.2
      rfl rfl).trans rfl⟩

/-- C3 counterexample: for the input `" <svg/>"` (leading space) both
resolvers return the trimmed markup `"<svg/>"`, not the original input
string as-is. -/
theorem markup_not_returned_untrimmed :
    resolve_svg_source emptyFS " <svg/>" = .ok "<svg/>" ∧
    resolve_svg_source emptyFS " <svg/>" ≠ .ok " <svg/>" ∧
    resolve_overlay_source emptyFS " <svg/>" = .ok (.raw "<svg/>") ∧
    resolve_overlay_source emptyFS " <svg/>" ≠ .ok (.raw " <svg/>") := by
  refine ⟨rfl, ?_, rfl, ?_⟩ <;> decide

/-- C3 amended: for every input whose trimmed form starts with `<`, both
resolvers return the trimmed input as raw markup (so inputs with no
surrounding whitespace are returned unchanged). -/
theorem markup_returns_trimmed_input (fs : FileSystem) (input : String)
    (h : startsWithLt (rustTrim input) = true) :
    resolve_svg_source fs input = .ok (rustTrim input) ∧
    resolve_overlay_source fs input = .ok (.raw (rustTrim input)) := by
  constructor <;>
    simp [resolve_svg_source, resolve_overlay_source,
      SerializableSvgSource.from_svg, h]

/-- Witness for the amended C3 at the concrete input `" <svg/>"`. -/
theorem markup_returns_trimmed_input_witness :
    resolve_svg_source emptyFS " <svg/>" = .ok (rustTrim " <svg/>") ∧
    resolve_overlay_source emptyFS " <svg/>" = .ok (.raw (rustTrim " <svg/>")) :=
  markup_returns_trimmed_input emptyFS " <svg/>" rfl

/-- C5: for every overlay input that does not take the svg-file branch,
resolution never fails — the non-markup, non-emoji case falls through to
`EmojiName` unconditionally; `"duck"` resolves to `EmojiName("duck")` and
`"🦆"` to `EmojiChar`. -/
theorem overlay_fallback_never_fails (fs : FileSystem) (input : String)
    (h2 : (hasSvgExtension (rustTrim input) && fs.pathExists (rustTrim input))
      = false) :
    (resolve_overlay_source fs input).isOk = true ∧
    (startsWithLt (rustTrim input) = false →
      looks_like_emoji (rustTrim input) = false →
      resolve_overlay_source fs input = .ok (.emojiName (rustTrim input))) ∧
    resolve_overlay_source emptyFS "duck" = .ok (.emojiName "duck") ∧
    resolve_overlay_source emptyFS "🦆" = .ok (.emojiChar "🦆") := by
  refine ⟨?_, ?_, rfl, rfl⟩
  · by_cases h1 : startsWithLt (rustTrim input) = true
    · simp [resolve_overlay_source, h1, Except.isOk, Except.toBool]
    · cases he : looks_like_emoji (rustTrim input) <;>
        simp [resolve_overlay_source, Bool.eq_false_iff.mpr h1, h2, he,
          Except.isOk, Except.toBool, SerializableSvgSource.from_emoji,
          SerializableSvgSource.from_emoji_name]
  · intro h1 he
    simp [resolve_overlay_source, h1, h2, he,
      SerializableSvgSource.from_emoji_name]

/-- Witness for C5 at the concrete input `"duck"` on the empty filesystem. -/
theorem overlay_fallback_never_fails_witness :
    (resolve_overlay_source emptyFS "duck").isOk = true ∧
    resolve_overlay_source emptyFS "duck" = .ok (.emojiName "duck") :=
  ⟨(overlay_fallback_never_fails emptyFS "duck" rfl).1,
    (overlay_fallback_never_fails emptyFS "duck" rfl).2.1 rfl rfl⟩

/-- C4 counterexample: `"⭐"` (U+2B50) contains no codepoint of the
emoji-signal set as the claim words it, yet the code classifies it as an
emoji character — the claimed set is not exhaustive. -/
theorem emoji_signal_outside_claimed_set :
    resolve_overlay_source emptyFS "⭐" = .ok (.emojiChar "⭐") ∧
    "⭐".data.all (fun c => !claimedEmojiSignalChar c) = true := by
  refine ⟨rfl, ?_⟩
  decide

/-- C4 amended: with the signal set extended by the stars/circles range
U+2B50–U+2B55, an overlay input that is neither raw markup nor an existing
`.svg` file resolves to `EmojiChar` exactly when it contains a codepoint of
the (amended) signal set. -/
theorem emoji_char_iff_amended_signal (fs : FileSystem) (input : String)
    (h1 : startsWithLt (rustTrim input) = false)
    (h2 : (hasSvgExtension (rustTrim input) && fs.pathExists (rustTrim input))
      = false) :
    resolve_overlay_source fs input = .ok (.emojiChar (rustTrim input)) ↔
      (rustTrim input).data.any amendedEmojiSignalChar = true := by
  rw [← looks_like_emoji_eq_any_amended]
  cases he : looks_like_emoji (rustTrim input) <;>
    simp [resolve_overlay_source, h1, h2, he,
      SerializableSvgSource.from_emoji, SerializableSvgSource.from_emoji_name]

/-- Witness for the amended C4 at the concrete input `"🦆"`. -/
theorem emoji_char_iff_amended_signal_witness :
    resolve_overlay_source emptyFS "🦆" = .ok (.emojiChar "🦆") :=
  (emoji_char_iff_amended_signal emptyFS "🦆" rfl rfl).mpr rfl

/-- C6 counterexample: the `--overlay-position` default declared at
`main.rs:66` is the string `"center"`, which parses to `Center`, not
`BottomRight`. -/
theorem overlay_default_not_bottom_right :
    overlayPositionDefault = some PositionArg.center ∧
    overlayPositionDefault ≠ some PositionArg.bottomRight := by
  refine ⟨rfl, ?_⟩
  decide

/-- C6 amended: the CLI's default anchor position for an overlay, used when
the caller supplies an overlay source but no explicit position, is Center
(and maps to the profile-level `Center` anchor). -/
theorem overlay_default_is_center :
    overlayPositionDefault = some PositionArg.center ∧
    overlayPositionDefault.map PositionArg.toSerializable =
      some SerializablePosition.center :=
  ⟨rfl, rfl⟩

/-- Successful decal staging leaves the overlay axis alone and either keeps
the decal axis or sets it to a raw-sourced, enabled setting (the stored
scale is existential: nothing here relies on the builder's scale handling). -/
lemma addDecalFromOptions_ok (fs : FileSystem) (d : Option String) (ds : Rat)
    (p p' : CustomizationProfile)
    (h : addDecalFromOptions fs d ds p = .ok p') :
    p'.overlay = p.overlay ∧
    (p'.decal = p.decal ∨
      ∃ m sc,
        p'.decal = some { source := .raw m, scale := sc, enabled := true }) := by
  cases d with
  | none =>
    simp [addDecalFromOptions] at h
    subst h
    exact ⟨rfl, Or.inl rfl⟩
  | some s =>
    cases hr : resolve_svg_source fs s with
    | error e => simp [addDecalFromOptions, hr] at h
    | ok svg =>
      simp [addDecalFromOptions, hr] at h
      subst h
      exact ⟨rfl, Or.inr ⟨svg, ds, rfl⟩⟩

/-- Successful overlay staging leaves the decal axis alone and either keeps
the overlay axis or sets it to an enabled setting with the given position
(the stored scale is existential, as above). -/
lemma addOverlayFromOptions_ok (fs : FileSystem) (o : Option String)
    (opos : PositionArg) (os : Rat) (p p' : CustomizationProfile)
    (h : addOverlayFromOptions fs o opos os p = .ok p') :
    p'.decal = p.decal ∧
    (p'.overlay = p.overlay ∨
      ∃ src sc, p'.overlay =
        some { source := src, position := opos.toSerializable, scale := sc,
               enabled := true }) := by
  cases o with
  | none =>
    simp [addOverlayFromOptions] at h
    subst h
    exact ⟨rfl, Or.inl rfl⟩
  | some s =>
    cases hr : resolve_overlay_source fs s with
    | error e => simp [addOverlayFromOptions, hr] at h
    | ok src =>
      simp [addOverlayFromOptions, hr] at h
      subst h
      exact ⟨rfl, Or.inr ⟨src, os, rfl⟩⟩

/-- A profile built from individual CLI options has its decal and overlay
axes either unset or staged by the decal/overlay blocks (with the stored
scales existential, independent of the builder's scale handling). -/
lemma buildProfileFromOptions_ok (fs : FileSystem)
    (colorHsl : Option HslMutation) (d : Option String) (ds : Rat)
    (o : Option String) (opos : PositionArg) (os : Rat)
    (p : CustomizationProfile)
    (h : buildProfileFromOptions fs colorHsl d ds o opos os = .ok p) :
    (p.decal = none ∨
      ∃ m sc,
        p.decal = some { source := .raw m, scale := sc, enabled := true }) ∧
    (p.overlay = none ∨
      ∃ src sc, p.overlay =
        some { source := src, position := opos.toSerializable, scale := sc,
               enabled := true }) := by
  unfold buildProfileFromOptions at h
  have hp0decal : (baseProfileFromOptions colorHsl).decal = none := by
    cases colorHsl <;>
      simp [baseProfileFromOptions, CustomizationProfile.new,
        CustomizationProfile.with_hsl_mutation]
  have hp0overlay : (baseProfileFromOptions colorHsl).overlay = none := by
    cases colorHsl <;>
      simp [baseProfileFromOptions, CustomizationProfile.new,
        CustomizationProfile.with_hsl_mutation]
  cases hd : addDecalFromOptions fs d ds (baseProfileFromOptions colorHsl) with
  | error e => rw [hd] at h; exact absurd h (by simp)
  | ok p1 =>
    rw [hd] at h
    have h1 :=
      addDecalFromOptions_ok fs d ds (baseProfileFromOptions colorHsl) p1 hd
    have h2 := addOverlayFromOptions_ok fs o opos os p1 p h
    constructor
    · rcases h1.2 with hkeep | ⟨m, sc, hm⟩
      · exact Or.inl (h2.1.trans (hkeep.trans hp0decal))
      · exact Or.inr ⟨m, sc, h2.1.trans hm⟩
    · rcases h2.2 with hkeep | ⟨src, sc, hsrc⟩
      · exact Or.inl (hkeep.trans (h1.1.trans hp0overlay))
      · exact Or.inr ⟨src, sc, hsrc⟩

/-- C10: every decal or overlay setting constructed by the CLI from
individual options is enabled, and every CLI-constructed decal source
carries the `Raw` tag. -/
theorem cli_settings_enabled_and_decal_raw (fs : FileSystem)
    (colorHsl : Option HslMutation) (d : Option String) (ds : Rat)
    (o : Option String) (opos : PositionArg) (os : Rat)
    (p : CustomizationProfile)
    (h : buildProfileFromOptions fs colorHsl d ds o opos os = .ok p) :
    (∀ dd, p.decal = some dd →
      dd.enabled = true ∧ ∃ m, dd.source = SerializableSvgSource.raw m) ∧
    (∀ oo, p.overlay = some oo → oo.enabled = true) := by
  have hb := buildProfileFromOptions_ok fs colorHsl d ds o opos os p h
  constructor
  · intro dd hdd
    rcases hb.1 with hnone | ⟨m, sc, hm⟩
    · rw [hnone] at hdd; cases hdd
    · rw [hm] at hdd
      cases hdd
      exact ⟨rfl, ⟨m, rfl⟩⟩
  · intro oo hoo
    rcases hb.2 with hnone | ⟨src, sc, hsrc⟩
    · rw [hnone] at hoo; cases hoo
    · rw [hsrc] at hoo
      cases hoo
      rfl

/-- Witness for C10: a concrete build stages an enabled, raw-sourced decal
and an enabled overlay. -/
theorem cli_settings_enabled_and_decal_raw_witness :
    (sampleDecalSettings.enabled = true ∧
      ∃ m, sampleDecalSettings.source = SerializableSvgSource.raw m) ∧
    sampleOverlaySettings.enabled = true :=
  ⟨(cli_settings_enabled_and_decal_raw emptyFS none (some "<svg/>") (7/10)
      (some "duck") PositionArg.center (7/10) _ rfl).1 _ rfl,
   (cli_settings_enabled_and_decal_raw emptyFS none (some "<svg/>") (7/10)
      (some "duck") PositionArg.center (7/10) _ rfl).2 _ rfl⟩

/-- The receive loop processes the whole channel content in order and ends
in the fold of the step function over it. -/
lemma recvDrain_spec (step : ProgressBarState → Progress → ProgressBarState)
    (events : List Progress) (pb : ProgressBarState) :
    (recvDrain step pb events).2 = events ∧
    (recvDrain step pb events).1 = events.foldl step pb := by
  induction events generalizing pb with
  | nil => simp [recvDrain]
  | cons e rest ih =>
    simp only [recvDrain, List.foldl_cons]
    exact ⟨by rw [(ih (step pb e)).1], (ih (step pb e)).2⟩

/-- C8: both progress consumers process every event sent before the channel
closed, each exactly once and in the order received, and terminate exactly
when the (FIFO, close-terminated) channel is drained: the processed trace
equals the sent sequence and the final bar state is the fold of the handler
over it. -/
theorem consumer_processes_all_events_in_order (events : List Progress)
    (pb : ProgressBarState) :
    (recvDrain customizeStep pb events).2 = events ∧
    (recvDrain customizeStep pb events).1 = events.foldl customizeStep pb ∧
    (recvDrain resetStep pb events).2 = events ∧
    (recvDrain resetStep pb events).1 = events.foldl resetStep pb :=
  ⟨(recvDrain_spec customizeStep events pb).1,
   (recvDrain_spec customizeStep events pb).2,
   (recvDrain_spec resetStep events pb).1,
   (recvDrain_spec resetStep events pb).2⟩

/-- Per-event position/length effect of the customize handler on non-anchor
events: terminal events advance the bar by one, nothing else moves it. -/
lemma customizeStep_pos (pb : ProgressBarState) (e : Progress)
    (h : e.isBatchAnchor = false) :
    (customizeStep pb e).pos = pb.pos + (if e.isTerminal then 1 else 0) ∧
    (customizeStep pb e).length = pb.length := by
  cases e <;>
    simp_all [customizeStep, Progress.isBatchAnchor, Progress.isTerminal,
      ProgressBarState.inc, ProgressBarState.set_message,
      ProgressBarState.set_length, ProgressBarState.finish_with_message]

/-- Per-event position/length effect of the reset handler on non-anchor
events. -/
lemma resetStep_pos (pb : ProgressBarState) (e : Progress)
    (h : e.isBatchAnchor = false) :
    (resetStep pb e).pos = pb.pos + (if e.isTerminal then 1 else 0) ∧
    (resetStep pb e).length = pb.length := by
  cases e <;>
    simp_all [resetStep, Progress.isBatchAnchor, Progress.isTerminal,
      ProgressBarState.inc, ProgressBarState.set_message,
      ProgressBarState.set_length, ProgressBarState.finish_with_message]

/-- Folding a handler over anchor-free events advances the position by the
number of terminal events and never touches the length. -/
lemma foldl_pos_of_step (step : ProgressBarState → Progress → ProgressBarState)
    (hstep : ∀ pb e, e.isBatchAnchor = false →
      (step pb e).pos = pb.pos + (if e.isTerminal then 1 else 0) ∧
      (step pb e).length = pb.length)
    (mid : List Progress) (pb : ProgressBarState)
    (h : mid.all (fun e => !e.isBatchAnchor) = true) :
    (mid.foldl step pb).pos = pb.pos + mid.countP (fun e => e.isTerminal) ∧
    (mid.foldl step pb).length = pb.length := by
  induction mid generalizing pb with
  | nil => simp
  | cons e rest ih =>
    simp only [List.all_cons, Bool.and_eq_true, Bool.not_eq_true'] at h
    obtain ⟨he, hrest⟩ := h
    have hs := hstep pb e he
    have hr := ih (step pb e) hrest
    constructor
    · rw [List.foldl_cons, hr.1, hs.1, List.countP_cons]
      cases ht : e.isTerminal
      · simp [ht]
      · simp [ht]
        omega
    · rw [List.foldl_cons, hr.2, hs.2]

/-- C9: the bar position advances by exactly one per `FolderComplete` and per
`FolderFailed` and by nothing else within a batch, so over a batch whose
directories all emit a terminal event the final position equals
`succeeded + failed`, the `Started` total — in both handlers. -/
theorem bar_advances_once_per_terminal_event (n s f : Nat)
    (mid : List Progress)
    (hanchor : mid.all (fun e => !e.isBatchAnchor) = true)
    (hcount : mid.countP (fun e => e.isTerminal) = n)
    (hsf : s + f = n) :
    (∀ pb path, (customizeStep pb (.folderComplete path)).pos = pb.pos + 1) ∧
    (∀ pb path err,
      (customizeStep pb (.folderFailed path err)).pos = pb.pos + 1) ∧
    (∀ pb path, (resetStep pb (.folderComplete path)).pos = pb.pos + 1) ∧
    (∀ pb path err,
      (resetStep pb (.folderFailed path err)).pos = pb.pos + 1) ∧
    (∀ pb e, e.isBatchAnchor = false → e.isTerminal = false →
      (customizeStep pb e).pos = pb.pos ∧ (resetStep pb e).pos = pb.pos) ∧
    (mid.foldl customizeStep
      (customizeStep (ProgressBarState.new n) (.started n))).pos = s + f ∧
    (mid.foldl resetStep
      (resetStep (ProgressBarState.new n) (.started n))).pos = s + f ∧
    ((Progress.started n :: mid ++ [Progress.completed s f]).foldl
        customizeStep (ProgressBarState.new n)).pos = s + f ∧
    ((Progress.started n :: mid ++ [Progress.completed s f]).foldl
        resetStep (ProgressBarState.new n)).pos = s + f := by
  refine ⟨?_, ?_, ?_, ?_, ?_, ?_, ?_, ?_, ?_⟩
  · intro pb path
    simp [customizeStep, ProgressBarState.inc]
  · intro pb path err
    simp [customizeStep, ProgressBarState.inc]
  · intro pb path
    simp [resetStep, ProgressBarState.inc]
  · intro pb path err
    simp [resetStep, ProgressBarState.inc]
  · intro pb e ha ht
    constructor
    · rw [(customizeStep_pos pb e ha).1, ht]
      simp
    · rw [(resetStep_pos pb e ha).1, ht]
      simp
  · have h1 : (customizeStep (ProgressBarState.new n) (.started n)).pos = 0 := by
      simp [customizeStep, ProgressBarState.new, ProgressBarState.set_length,
        ProgressBarState.set_message]
    have h2 := foldl_pos_of_step customizeStep customizeStep_pos mid
      (customizeStep (ProgressBarState.new n) (.started n)) hanchor
    rw [h2.1, h1, hcount]
    omega
  · have h1 : (resetStep (ProgressBarState.new n) (.started n)).pos = 0 := by
      simp [resetStep, ProgressBarState.new, ProgressBarState.set_length,
        ProgressBarState.set_message]
    have h2 := foldl_pos_of_step resetStep resetStep_pos mid
      (resetStep (ProgressBarState.new n) (.started n)) hanchor
    rw [h2.1, h1, hcount]
    omega
  · have h1 : (customizeStep (ProgressBarState.new n) (.started n)).pos = 0 ∧
        (customizeStep (ProgressBarState.new n) (.started n)).length = n := by
      simp [customizeStep, ProgressBarState.new, ProgressBarState.set_length,
        ProgressBarState.set_message]
    have h2 := foldl_pos_of_step customizeStep customizeStep_pos mid
      (customizeStep (ProgressBarState.new n) (.started n)) hanchor
    simp only [List.foldl_cons, List.foldl_append, List.foldl_nil]
    have h3 : (customizeStep
        (List.foldl customizeStep
          (customizeStep (ProgressBarState.new n) (.started n)) mid)
        (.completed s f)).pos =
        (List.foldl customizeStep
          (customizeStep (ProgressBarState.new n) (.started n)) mid).length :=
      rfl
    rw [h3, h2.2, h1.2, hsf]
  · have h1 : (resetStep (ProgressBarState.new n) (.started n)).pos = 0 ∧
        (resetStep (ProgressBarState.new n) (.started n)).length = n := by
      simp [resetStep, ProgressBarState.new, ProgressBarState.set_length,
        ProgressBarState.set_message]
    have h2 := foldl_pos_of_step resetStep resetStep_pos mid
      (resetStep (ProgressBarState.new n) (.started n)) hanchor
    simp only [List.foldl_cons, List.foldl_append, List.foldl_nil]
    have h3 : (resetStep
        (List.foldl resetStep
          (resetStep (ProgressBarState.new n) (.started n)) mid)
        (.completed s f)).pos =
        (List.foldl resetStep
          (resetStep (ProgressBarState.new n) (.started n)) mid).length :=
      rfl
    rw [h3, h2.2, h1.2, hsf]

/-- Witness for C9: a two-directory batch with one success and one failure
drives the customize handler's bar to position `1 + 1`. -/
theorem bar_advances_once_per_terminal_event_witness :
    ((Progress.started 2 :: [Progress.processing "a",
        Progress.folderComplete "a", Progress.processing "b",
        Progress.folderFailed "b" "oops"] ++
        [Progress.completed 1 1]).foldl customizeStep
      (ProgressBarState.new 2)).pos = 1 + 1 :=
  (bar_advances_once_per_terminal_event 2 1 1 _ (by decide) (by decide)
    rfl).2.2.2.2.2.2.2.1

end Folco
